import Mathlib

/-!
Verification of the Wren-style tokenizer in `src/scripts/webpack.js` (the
`Parser` class).  The scanner is embedded shallowly: the JavaScript string
`this.source` becomes a `List Char`, and indexing past the end — which in
JavaScript yields `undefined`, not a NUL byte — is modeled by `Option Char`
(`none` = `undefined`).  JavaScript's loose comparisons and numeric coercions
that the code relies on (e.g. `c >= 32` on a one-character string, `NaN != -1`,
`parseInt(this.tokenStart, 16)`) are modeled explicitly below, at the sites
where the code performs them.

Every loop of the source is compiled to a fuel-indexed function returning
`Option Parser`; `none` means the loop did not finish within the given fuel.
Several of the source's loops genuinely diverge on inputs without a NUL byte
(e.g. `readString` at end of input), and those divergences are proved below.

Ghost instrumentation (fields `spans`, and the record lists `tokens`, `errors`)
mirrors observable effects: `tokens` models the `this.tokens.push` calls of
`makeToken`, `errors` the `lexError` reports, and `spans` records which byte
range each produced token / skipped whitespace-or-comment stretch / invalid
byte occupies.  The `aliased` flag models the JavaScript object aliasing
created by `this.previous = this.current` (a reference assignment) followed by
in-place mutation of `this.current` in `makeToken`.
-/

namespace WrenTok

/-- The maximum depth that interpolation can nest (`MAX_INTERPOLATION_NESTING`). -/
def MAX_INTERPOLATION_NESTING : Nat := 8

/-- Token kinds (`TOKEN_*` strings of the source). -/
inductive TokType where
  | LEFT_PAREN | RIGHT_PAREN | LEFT_BRACKET | RIGHT_BRACKET
  | LEFT_BRACE | RIGHT_BRACE | COLON | COMMA | STAR | PERCENT
  | CARET | PLUS | MINUS | TILDE | QUESTION
  | PIPEPIPE | PIPE | AMPAMP | AMP | EQEQ | EQ | BANGEQ | BANG
  | DOTDOTDOT | DOTDOT | DOT | SLASH | LTLT | LTEQ | LT | GTGT | GTEQ | GT
  | LINE | STRING | INTERPOLATION | FIELD | STATIC_FIELD | NUMBER | NAME
  | BREAK | CLASS | CONSTRUCT | ELSE | FALSE | FOR | FOREIGN | IF | IMPORT
  | IN | IS | NULL | RETURN | STATIC | SUPER | THIS | TRUE | VAR | WHILE
  | ERROR | EOF
  deriving DecidableEq

/-- JavaScript values stored in `current.value` (initially `undefined`;
numbers from `makeNumber`/`readHexEscape`, strings from the escape cases). -/
inductive JsVal where
  | undef : JsVal
  | numI : Int → JsVal
  | str : String → JsVal
  deriving DecidableEq

/-- A JavaScript number that may be `NaN` (result of `readHexDigit`, where
the source computes `c - 'a' + 10` on one-character strings, giving `NaN`). -/
inductive JsNum where
  | num : Int → JsNum
  | nan : JsNum
  deriving DecidableEq

/-- Lexical error messages, one constructor per `lexError` call site, with the
data interpolated into the message as payload. -/
inductive ErrKind where
  | unterminatedBlockComment : ErrKind
  | unterminatedSciNotation : ErrKind
  | incompleteEscape : String → ErrKind
  | invalidEscape : String → ErrKind
  | unterminatedString : ErrKind
  | expectParenAfterPercent : ErrKind
  | nestTooDeep : ErrKind
  | invalidEscapeChar : Nat → ErrKind
  | invalidCharacter : Char → ErrKind
  | invalidByte : Option Char → ErrKind
  deriving DecidableEq

/-- Ghost classification of a consumed byte range: part of a produced token's
lexeme, skipped whitespace/comment text, or a byte consumed for a zero-length
`ERROR` token. -/
inductive SpanKind where
  | tok : SpanKind
  | skip : SpanKind
  | err : SpanKind
  deriving DecidableEq

/-- Ghost record of a consumed byte range `[start, stop)`. -/
structure Span where
  start : Nat
  stop : Nat
  kind : SpanKind
  deriving DecidableEq

/-- A record pushed onto `this.tokens` by `makeToken`:
`{type, value: source.substr(start, length), line}`. -/
structure PushedTok where
  type : TokType
  value : List Char
  line : Int
  deriving DecidableEq

/-- The `current`/`previous` token record.  `start` is `none` until the first
`makeToken` (the constructor's literal has no `start` field). -/
structure Token where
  type : Option TokType := none
  start : Option Nat := none
  length : Nat := 0
  line : Int := 0
  value : JsVal := JsVal.undef
  deriving DecidableEq

/-- The scanner state (the mutable fields of the JavaScript `Parser`).
`parens`/`numParens` are modeled as a stack `parens : List Int` whose head is
`parens[numParens - 1]` and whose length is `numParens` (all array accesses in
the source are at those indices).  `aliased` records whether `previous` and
`current` are the same heap object (true after any `nextToken` call). -/
structure Parser where
  source : List Char
  tokenStart : Nat := 0
  currentChar : Nat := 0
  currentLine : Int := 0
  current : Token := {}
  previous : Token := {}
  aliased : Bool := false
  parens : List Int := []
  tokens : List PushedTok := []
  errors : List (Int × ErrKind) := []
  spans : List Span := []
  deriving DecidableEq

/-- `peekChar()`: `this.source[this.currentChar]`; out of range is `undefined`. -/
def peekChar (s : Parser) : Option Char := s.source[s.currentChar]?

/-- `peekNextChar()`: `this.source[this.currentChar + 1]`. -/
def peekNextChar (s : Parser) : Option Char := s.source[s.currentChar + 1]?

/-- The state effect of `nextChar()`: advance the cursor, bumping the line
counter when the consumed character is a newline.  (The returned character is
`peekChar` of the pre-state.) -/
def nextCharAdv (s : Parser) : Parser :=
  if peekChar s = some '\n' then
    { s with currentChar := s.currentChar + 1, currentLine := s.currentLine + 1 }
  else
    { s with currentChar := s.currentChar + 1 }

/-- The state effect of `matchChar(c)`; its boolean result is
`peekChar s = some c`. -/
def matchCharAdv (c : Char) (s : Parser) : Parser :=
  if peekChar s = some c then nextCharAdv s else s

/-- `source.substr(start, len)`. -/
def substr (src : List Char) (start len : Nat) : List Char :=
  (src.drop start).take len

/-- `lexError(message)`: report `(currentLine, message)` and continue. -/
def lexError (k : ErrKind) (s : Parser) : Parser :=
  { s with errors := s.errors ++ [(s.currentLine, k)] }

/-- `makeToken(type)`: set `current` to the given type and the byte range
`[tokenStart, currentChar)`, decrement the line for `TOKEN_LINE`, and push the
`{type, value, line}` record onto `tokens`.  The ghost `spans` field records
the lexeme's byte range. -/
def makeToken (type : TokType) (s : Parser) : Parser :=
  let line : Int := if type = TokType.LINE then s.currentLine - 1 else s.currentLine
  let len : Nat := s.currentChar - s.tokenStart
  { s with
    current := { s.current with
      type := some type, start := some s.tokenStart, length := len, line := line },
    tokens := s.tokens ++ [⟨type, substr s.source s.tokenStart len, line⟩],
    spans := s.spans ++ [⟨s.tokenStart, s.currentChar, SpanKind.tok⟩] }

/-- `twoCharToken(c, two, one)`. -/
def twoCharToken (c : Char) (two one : TokType) (s : Parser) : Parser :=
  makeToken (if peekChar s = some c then two else one) (matchCharAdv c s)

/-- `isDigit(c)` on the possibly-`undefined` character. -/
def isDigitO (c : Option Char) : Bool :=
  match c with
  | some ch => decide ('0' ≤ ch ∧ ch ≤ '9')
  | none => false

/-- `isName(c)` on the possibly-`undefined` character. -/
def isNameO (c : Option Char) : Bool :=
  match c with
  | some ch => decide (('a' ≤ ch ∧ ch ≤ 'z') ∨ ('A' ≤ ch ∧ ch ≤ 'Z') ∨ ch = '_')
  | none => false

/-- JavaScript `ToNumber` on the operand of `c >= 32` / `c <= 126`, where `c`
is a one-character string or `undefined`: digits convert to their value,
whitespace characters to `0`, everything else (and `undefined`) to `NaN`
(modeled as `none`). -/
def jsToNumber (c : Option Char) : Option Int :=
  match c with
  | none => none
  | some ch =>
    if '0' ≤ ch ∧ ch ≤ '9' then some ((ch.toNat : Int) - ('0'.toNat : Int))
    else if ch = ' ' ∨ ch = '\t' ∨ ch = '\n' ∨ ch = '\r' ∨ ch = '\x0B' ∨ ch = '\x0C' then some 0
    else none

/-- The source's printability test `c >= 32 && c <= 126`: a JavaScript
relational comparison between a string and a number, which is `false` whenever
`ToNumber(c)` is `NaN`. -/
def jsPrintable (c : Option Char) : Bool :=
  match jsToNumber c with
  | some v => decide (32 ≤ v ∧ v ≤ 126)
  | none => false

/-- `skipLineComment()`: skip until a newline or a NUL byte.  At end of input
`peekChar` is `undefined`, which satisfies the loop condition, so the loop
only stops on an actual `'\n'` or `'\x00'` character. -/
def skipLineComment : Nat → Parser → Option Parser
  | 0, _ => none
  | fuel + 1, s =>
    if peekChar s ≠ some '\n' ∧ peekChar s ≠ some '\x00' then
      skipLineComment fuel (nextCharAdv s)
    else some s

/-- `skipBlockComment()` with its explicit nesting counter. -/
def skipBlockComment : Nat → Int → Parser → Option Parser
  | 0, _, _ => none
  | fuel + 1, nesting, s =>
    if nesting > 0 then
      if peekChar s = some '\x00' then some (lexError ErrKind.unterminatedBlockComment s)
      else if peekChar s = some '/' ∧ peekNextChar s = some '*' then
        skipBlockComment fuel (nesting + 1) (nextCharAdv (nextCharAdv s))
      else if peekChar s = some '*' ∧ peekNextChar s = some '/' then
        skipBlockComment fuel (nesting - 1) (nextCharAdv (nextCharAdv s))
      else
        skipBlockComment fuel nesting (nextCharAdv s)
    else some s

/-- The whitespace-skipping loop of the `' '`/`'\r'`/`'\t'` case. -/
def skipWs : Nat → Parser → Option Parser
  | 0, _ => none
  | fuel + 1, s =>
    if peekChar s = some ' ' ∨ peekChar s = some '\r' ∨ peekChar s = some '\t' then
      skipWs fuel (nextCharAdv s)
    else some s

/-- The digit-skipping loops of `readNumber`. -/
def skipDigits : Nat → Parser → Option Parser
  | 0, _ => none
  | fuel + 1, s =>
    if isDigitO (peekChar s) then skipDigits fuel (nextCharAdv s)
    else some s

/-- The name-character loop of `readName`. -/
def skipNameChars : Nat → Parser → Option Parser
  | 0, _ => none
  | fuel + 1, s =>
    if isNameO (peekChar s) || isDigitO (peekChar s) then
      skipNameChars fuel (nextCharAdv s)
    else some s

/-- The value returned by `readHexDigit()`: the digit value for `'0'`-`'9'`,
`NaN` for `'a'`-`'f'`/`'A'`-`'F'` (the source computes `c - 'a' + 10` on
strings, which is `NaN`), and `-1` otherwise. -/
def readHexDigitVal (s : Parser) : JsNum :=
  match peekChar s with
  | some ch =>
    if '0' ≤ ch ∧ ch ≤ '9' then JsNum.num ((ch.toNat : Int) - ('0'.toNat : Int))
    else if 'a' ≤ ch ∧ ch ≤ 'f' then JsNum.nan
    else if 'A' ≤ ch ∧ ch ≤ 'F' then JsNum.nan
    else JsNum.num (-1)
  | none => JsNum.num (-1)

/-- The state effect of `readHexDigit()`: consume the character, but back up
(`this.currentChar--`) when returning `-1`.  A consumed `'\n'` still bumps the
line counter even when backed over. -/
def readHexDigitAdv (s : Parser) : Parser :=
  let s1 := nextCharAdv s
  if readHexDigitVal s = JsNum.num (-1) then { s1 with currentChar := s1.currentChar - 1 }
  else s1

/-- The `(value * 16) | digit` update of `readHexEscape`: JavaScript bitwise
or converts `NaN` to `0`. -/
def jsOrOperand (d : JsNum) : Nat :=
  match d with
  | JsNum.num n => n.toNat
  | JsNum.nan => 0

/-- The loop of `readHexEscape(digits, description)`, accumulating `value`.
On a premature `'"'` or `'\x00'` it reports an incomplete-escape error and
backs the cursor up one position (a net decrement). -/
def hexEscapeGo (desc : String) : Nat → Nat → Parser → Nat × Parser
  | 0, value, s => (value, s)
  | i + 1, value, s =>
    if peekChar s = some '"' ∨ peekChar s = some '\x00' then
      let s1 := lexError (ErrKind.incompleteEscape desc) s
      (value, { s1 with currentChar := s1.currentChar - 1 })
    else
      let d := readHexDigitVal s
      let s1 := readHexDigitAdv s
      if d = JsNum.num (-1) then (value, lexError (ErrKind.invalidEscape desc) s1)
      else hexEscapeGo desc i (Nat.lor (value * 16) (jsOrOperand d)) s1

/-- `readHexEscape(digits, description)`. -/
def readHexEscape (digits : Nat) (desc : String) (s : Parser) : Nat × Parser :=
  hexEscapeGo desc digits 0 s

/-- The decimal digits of a natural number, most significant first. -/
def decDigits (n : Nat) : List Nat :=
  (Nat.toDigits 10 n).map fun c => c.toNat - '0'.toNat

/-- `parseInt(this.tokenStart, 16)`: JavaScript stringifies the *number*
`tokenStart` to its decimal representation and reparses those digits in base
16 (every decimal digit is a valid hex digit, so the whole string parses). -/
def jsParseIntHexNat (n : Nat) : Nat :=
  (decDigits n).foldl (fun acc d => acc * 16 + d) 0

/-- `makeNumber(isHex)`: the token value is computed from `this.tokenStart`
— the numeric byte offset, not the lexeme — exactly as the source does
(`parseInt(this.tokenStart, 16)` resp. `parseFloat(this.tokenStart)`). -/
def makeNumber (isHex : Bool) (s : Parser) : Parser :=
  let v : JsVal :=
    if isHex then JsVal.numI (jsParseIntHexNat s.tokenStart)
    else JsVal.numI (s.tokenStart : Int)
  makeToken TokType.NUMBER { s with current := { s.current with value := v } }

/-- The `while (this.readHexDigit() != -1) continue;` loop of
`readHexNumber`: `NaN != -1` is true in JavaScript, so letter digits keep the
loop going. -/
def readHexLoop : Nat → Parser → Option Parser
  | 0, _ => none
  | fuel + 1, s =>
    if readHexDigitVal s ≠ JsNum.num (-1) then readHexLoop fuel (readHexDigitAdv s)
    else some (makeNumber true (readHexDigitAdv s))

/-- `readHexNumber()`: skip the `'x'`, consume hex digits, make the number. -/
def readHexNumber (fuel : Nat) (s : Parser) : Option Parser :=
  readHexLoop fuel (nextCharAdv s)

/-- `readNumber()`: integer part, optional fraction (only when the dot is
followed by a digit), optional scientific notation. -/
def readNumber (fuel : Nat) (s : Parser) : Option Parser :=
  (skipDigits fuel s).bind fun s =>
    (if peekChar s = some '.' ∧ isDigitO (peekNextChar s) then
        skipDigits fuel (nextCharAdv s)
      else some s).bind fun s =>
      if peekChar s = some 'e' ∨ peekChar s = some 'E' then
        let s := nextCharAdv s
        let s := matchCharAdv '-' s
        let s := if ¬ isDigitO (peekChar s) then lexError ErrKind.unterminatedSciNotation s else s
        (skipDigits fuel s).bind fun s => some (makeNumber false s)
      else some (makeNumber false s)

/-- The keyword table, including the `null` sentinel entry (whose identifier
never compares equal to any name, matching `name == null` being false). -/
def keywords : List (Option (List Char) × Nat × TokType) :=
  [ (some ("break".toList), 5, TokType.BREAK),
    (some ("class".toList), 5, TokType.CLASS),
    (some ("construct".toList), 9, TokType.CONSTRUCT),
    (some ("else".toList), 4, TokType.ELSE),
    (some ("false".toList), 5, TokType.FALSE),
    (some ("for".toList), 3, TokType.FOR),
    (some ("foreign".toList), 7, TokType.FOREIGN),
    (some ("if".toList), 2, TokType.IF),
    (some ("import".toList), 6, TokType.IMPORT),
    (some ("in".toList), 2, TokType.IN),
    (some ("is".toList), 2, TokType.IS),
    (some ("null".toList), 4, TokType.NULL),
    (some ("return".toList), 6, TokType.RETURN),
    (some ("static".toList), 6, TokType.STATIC),
    (some ("super".toList), 5, TokType.SUPER),
    (some ("this".toList), 4, TokType.THIS),
    (some ("true".toList), 4, TokType.TRUE),
    (some ("var".toList), 3, TokType.VAR),
    (some ("while".toList), 5, TokType.WHILE),
    (none, 0, TokType.EOF) ]

/-- One keyword-table comparison: `name.length == kw.length && name == kw.identifier`. -/
def kwMatches (name : List Char) (kw : Option (List Char) × Nat × TokType) : Bool :=
  (name.length == kw.2.1) && (match kw.1 with
    | some id => name == id
    | none => false)

/-- `readName(type)`: scan the identifier, then reclassify via the first
matching keyword-table entry. -/
def readName (fuel : Nat) (type : TokType) (s : Parser) : Option Parser :=
  (skipNameChars fuel s).bind fun s =>
    let name := substr s.source s.tokenStart (s.currentChar - s.tokenStart)
    let t := match keywords.find? (kwMatches name) with
      | some kw => kw.2.2
      | none => type
    some (makeToken t s)

/-- The body of `readString()`: scan until an unescaped `'"'`; `'\x00'` means
an unterminated string (error, back up, emit anyway); `'%'` starts an
interpolation (push a counter and emit `INTERPOLATION`) unless the nesting
limit is reached, in which case the error is reported and scanning continues
in the string; `'\\'` handles the three implemented escapes.  At end of input
`peekChar` is `undefined`, which matches none of the cases, so the loop
recurses forever (a real divergence of the source). -/
def readStringGo : Nat → TokType → Parser → Option Parser
  | 0, _, _ => none
  | fuel + 1, ty, s0 =>
    let c := peekChar s0
    let s := nextCharAdv s0
    if c = some '"' then some (makeToken ty s)
    else if c = some '\x00' then
      let s := lexError ErrKind.unterminatedString s
      some (makeToken ty { s with currentChar := s.currentChar - 1 })
    else if c = some '%' then
      if s.parens.length < MAX_INTERPOLATION_NESTING then
        let c2 := peekChar s
        let s1 := nextCharAdv s
        let s2 := if c2 ≠ some '(' then lexError ErrKind.expectParenAfterPercent s1 else s1
        some (makeToken TokType.INTERPOLATION { s2 with parens := (1 : Int) :: s2.parens })
      else
        readStringGo fuel ty (lexError ErrKind.nestTooDeep s)
    else if c = some '\\' then
      let c2 := peekChar s
      let s1 := nextCharAdv s
      let s2 :=
        if c2 = some 't' then { s1 with current := { s1.current with value := JsVal.str "\t" } }
        else if c2 = some 'v' then
          { s1 with current := { s1.current with value := JsVal.str "\x0B" } }
        else if c2 = some 'x' then
          let p := readHexEscape 2 "byte" s1
          { p.2 with current := { p.2.current with value := JsVal.numI (p.1 : Int) } }
        else lexError (ErrKind.invalidEscapeChar (s1.currentChar - 1)) s1
      readStringGo fuel ty s2
    else
      readStringGo fuel ty s

/-- `readString()`: the token type starts as `STRING` and may become
`INTERPOLATION`. -/
def readString (fuel : Nat) (s : Parser) : Option Parser :=
  readStringGo fuel TokType.STRING s

/-- Ghost: record the byte range `[tokenStart, currentChar)` that a break
iteration of the scan loop skipped (whitespace, comment, or shebang). -/
def recordSkip (s : Parser) : Parser :=
  { s with spans := s.spans ++ [⟨s.tokenStart, s.currentChar, SpanKind.skip⟩] }

/-- Ghost: record the single byte consumed for a zero-length `ERROR` token. -/
def recordErrByte (s : Parser) : Parser :=
  { s with spans := s.spans ++ [⟨s.tokenStart, s.currentChar, SpanKind.err⟩] }

/-- The dispatch of `nextToken`'s scan loop on the consumed character `c`,
with `s` the state after consuming it.  `go` is the continuation for the
`break` cases (whitespace, comments, shebang), which re-enter the loop.  The
final `default` arm is the invalid-character/invalid-byte path, which sets
the current token to a zero-length `ERROR` without calling `makeToken`. -/
def scanDispatch (f : Nat) (go : Parser → Option Parser) (c : Option Char)
    (s : Parser) : Option Parser :=
  if c = some '(' then
    let s := match s.parens with
      | p :: rest => { s with parens := (p + 1) :: rest }
      | [] => s
    some (makeToken TokType.LEFT_PAREN s)
  else if c = some ')' then
    match s.parens with
    | p :: rest =>
      if p - 1 = 0 then readString f { s with parens := rest }
      else some (makeToken TokType.RIGHT_PAREN { s with parens := (p - 1) :: rest })
    | [] => some (makeToken TokType.RIGHT_PAREN s)
  else if c = some '[' then some (makeToken TokType.LEFT_BRACKET s)
  else if c = some ']' then some (makeToken TokType.RIGHT_BRACKET s)
  else if c = some '{' then some (makeToken TokType.LEFT_BRACE s)
  else if c = some '}' then some (makeToken TokType.RIGHT_BRACE s)
  else if c = some ':' then some (makeToken TokType.COLON s)
  else if c = some ',' then some (makeToken TokType.COMMA s)
  else if c = some '*' then some (makeToken TokType.STAR s)
  else if c = some '%' then some (makeToken TokType.PERCENT s)
  else if c = some '^' then some (makeToken TokType.CARET s)
  else if c = some '+' then some (makeToken TokType.PLUS s)
  else if c = some '-' then some (makeToken TokType.MINUS s)
  else if c = some '~' then some (makeToken TokType.TILDE s)
  else if c = some '?' then some (makeToken TokType.QUESTION s)
  else if c = some '|' then some (twoCharToken '|' TokType.PIPEPIPE TokType.PIPE s)
  else if c = some '&' then some (twoCharToken '&' TokType.AMPAMP TokType.AMP s)
  else if c = some '=' then some (twoCharToken '=' TokType.EQEQ TokType.EQ s)
  else if c = some '!' then some (twoCharToken '=' TokType.BANGEQ TokType.BANG s)
  else if c = some '.' then
    if peekChar s = some '.' then
      some (twoCharToken '.' TokType.DOTDOTDOT TokType.DOTDOT (nextCharAdv s))
    else some (makeToken TokType.DOT s)
  else if c = some '/' then
    if peekChar s = some '/' then
      (skipLineComment f (nextCharAdv s)).bind fun s => go (recordSkip s)
    else if peekChar s = some '*' then
      (skipBlockComment f 1 (nextCharAdv s)).bind fun s => go (recordSkip s)
    else some (makeToken TokType.SLASH s)
  else if c = some '<' then
    if peekChar s = some '<' then some (makeToken TokType.LTLT (nextCharAdv s))
    else some (twoCharToken '=' TokType.LTEQ TokType.LT s)
  else if c = some '>' then
    if peekChar s = some '>' then some (makeToken TokType.GTGT (nextCharAdv s))
    else some (twoCharToken '=' TokType.GTEQ TokType.GT s)
  else if c = some '\n' then some (makeToken TokType.LINE s)
  else if c = some ' ' ∨ c = some '\r' ∨ c = some '\t' then
    (skipWs f s).bind fun s => go (recordSkip s)
  else if c = some '"' then readString f s
  else if c = some '_' then
    readName f (if peekChar s = some '_' then TokType.STATIC_FIELD else TokType.FIELD) s
  else if c = some '0' then
    if peekChar s = some 'x' then readHexNumber f s
    else readNumber f s
  else if c = some '#' ∧ s.currentLine = 1 ∧ peekChar s = some '!' then
    -- the source tests `this.currentLine == 1 && c == '#' && this.peekChar() == '!'`;
    -- all three conjuncts are pure, so the conjunction is reordered here (the
    -- character test first) without changing its value
    (skipLineComment f s).bind fun s => go (recordSkip s)
  else if isNameO c then readName f TokType.NAME s
  else if isDigitO c then readNumber f s
  else
    let s := if jsPrintable c then lexError (ErrKind.invalidCharacter (c.getD ' ')) s
      else lexError (ErrKind.invalidByte c) s
    some (recordErrByte
      { s with current := { s.current with type := some TokType.ERROR, length := 0 } })

/-- One iteration of `nextToken`'s scan loop, wired together: set
`tokenStart` to the cursor, consume one character, and dispatch on it. -/
def scanCase (f : Nat) (go : Parser → Option Parser) (s0 : Parser) : Option Parser :=
  scanDispatch f go (peekChar { s0 with tokenStart := s0.currentChar })
    (nextCharAdv { s0 with tokenStart := s0.currentChar })

/-- The `while (this.peekChar() != '\0')` loop of `nextToken`.  At end of
input `peekChar` is `undefined`, which is `!= '\0'`, so the loop is entered;
the `TOKEN_EOF` branch is only reachable on an actual NUL character. -/
def scanLoop : Nat → Parser → Option Parser
  | 0, _ => none
  | f + 1, s =>
    if peekChar s ≠ some '\x00' then scanCase f (scanLoop f) s
    else some (makeToken TokType.EOF { s with tokenStart := s.currentChar })

/-- `nextToken()`: `this.previous = this.current` (a reference assignment,
recorded by `aliased := true`), the early return once `current` is `EOF`, and
the scan loop. -/
def nextToken (fuel : Nat) (s : Parser) : Option Parser :=
  let s := { s with previous := s.current, aliased := true }
  if s.current.type = some TokType.EOF then some s
  else scanLoop fuel s

/-- The observable `this.previous`: after any `nextToken` call `previous` and
`current` are the same object, so reading `previous` yields `current`. -/
def getPrevious (s : Parser) : Token :=
  if s.aliased then s.current else s.previous

/-- The field initializations of the `Parser` constructor (before its
`nextToken` loop). -/
def initParser (source : List Char) : Parser :=
  { source := source }

/-- `n` successive `nextToken` calls, each with the given fuel. -/
def iterTok (fuel : Nat) : Nat → Parser → Option Parser
  | 0, s => some s
  | n + 1, s => (nextToken fuel s).bind (iterTok fuel n)

/-- The full `Parser` constructor: initialize the fields, then call
`nextToken` 85 times. -/
def mkParser (fuel : Nat) (source : List Char) : Option Parser :=
  iterTok fuel 85 (initParser source)

/-- The scanner states reachable from a freshly constructed `Parser` by
`nextToken` calls (with any fuel). -/
inductive Reachable : Parser → Prop where
  | init (src : List Char) : Reachable (initParser src)
  | step {s s' : Parser} (fuel : Nat) :
      Reachable s → nextToken fuel s = some s' → Reachable s'

/-- The bytes of `source` covered by a ghost span. -/
def spanSlice (src : List Char) (sp : Span) : List Char :=
  substr src sp.start (sp.stop - sp.start)

/-- `Chain a l b`: the spans `l` tile the byte range `[a, b)` consecutively
and in order, each span being well-formed (`start ≤ stop`). -/
def Chain : Nat → List Span → Nat → Prop
  | a, [], b => a = b
  | a, sp :: l, b => sp.start = a ∧ a ≤ sp.stop ∧ Chain sp.stop l b

/-- The state after one `nextToken` call on a state whose `peekChar` is
`undefined` (cursor at or past the end of the buffer): the call runs into the
default arm, reports `Invalid byte 0xundefined.`, marks `current` as a
zero-length `ERROR` token and advances the cursor one step further. -/
def errStep (s : Parser) : Parser :=
  { s with
    previous := s.current,
    aliased := true,
    tokenStart := s.currentChar,
    currentChar := s.currentChar + 1,
    current := { s.current with type := some TokType.ERROR, length := 0 },
    errors := s.errors ++ [(s.currentLine, ErrKind.invalidByte none)],
    spans := s.spans ++ [⟨s.currentChar, s.currentChar + 1, SpanKind.err⟩] }

/-- Pure cursor advancement: the relation between a state and a later state
of the same scan-loop iteration before its final `makeToken`.  The ghost and
token fields are untouched, the cursor does not move backwards, and the
interpolation stack stays within the nesting bound. -/
structure Adv (s s' : Parser) : Prop where
  source : s'.source = s.source
  aliased : s'.aliased = s.aliased
  tokenStart : s'.tokenStart = s.tokenStart
  cursor : s.currentChar ≤ s'.currentChar
  spans : s'.spans = s.spans
  tokens : s'.tokens = s.tokens
  parlen : s'.parens.length ≤ max s.parens.length 8

/-- The effect of a token-reading helper (`readString`, `readName`,
`readNumber`, `readHexNumber`): it consumes forward from the cursor and ends
in exactly one `makeToken`, whose lexeme is the byte range from the saved
`tokenStart` to the final cursor. -/
structure ReaderOK (s s' : Parser) : Prop where
  source : s'.source = s.source
  aliased : s'.aliased = s.aliased
  tokenStart : s'.tokenStart = s.tokenStart
  cursor : s.currentChar ≤ s'.currentChar
  parlen : s'.parens.length ≤ max s.parens.length 8
  spans : s'.spans = s.spans ++ [⟨s.tokenStart, s'.currentChar, SpanKind.tok⟩]
  tokens : ∃ pt, s'.tokens = s.tokens ++ [pt] ∧
    pt.value = substr s.source s.tokenStart (s'.currentChar - s.tokenStart)

/-- The effect of one successful scan-loop run (`scanLoop`): the consumed
byte range `[old cursor, new cursor)` is tiled by the ghost spans appended
during the run, at most one token is pushed, that token's lexeme is exactly
its recorded span's slice, every invalid byte occupies a one-byte `err` span,
and the interpolation stack stays within the nesting bound. -/
structure StepOK (s s' : Parser) : Prop where
  source : s'.source = s.source
  aliased : s'.aliased = s.aliased
  cursor : s.currentChar ≤ s'.currentChar
  parlen : s'.parens.length ≤ max s.parens.length 8
  spans : ∃ d, s'.spans = s.spans ++ d ∧ Chain s.currentChar d s'.currentChar ∧
    (∀ sp ∈ d, sp.kind = SpanKind.err → sp.stop = sp.start + 1) ∧
    ∃ t, s'.tokens = s.tokens ++ t ∧ t.length ≤ 1 ∧
      t.map (fun pt => pt.value) =
        (d.filter (fun sp => sp.kind == SpanKind.tok)).map (spanSlice s.source)

/-- The effect of one successful `nextToken` call: as `StepOK`, and
additionally `previous` now aliases `current`. -/
structure NextOK (s s' : Parser) : Prop where
  source : s'.source = s.source
  aliased : s'.aliased = true
  cursor : s.currentChar ≤ s'.currentChar
  parlen : s'.parens.length ≤ max s.parens.length 8
  spans : ∃ d, s'.spans = s.spans ++ d ∧ Chain s.currentChar d s'.currentChar ∧
    (∀ sp ∈ d, sp.kind = SpanKind.err → sp.stop = sp.start + 1) ∧
    ∃ t, s'.tokens = s.tokens ++ t ∧ t.length ≤ 1 ∧
      t.map (fun pt => pt.value) =
        (d.filter (fun sp => sp.kind == SpanKind.tok)).map (spanSlice s.source)

/-- The nine-levels-deep interpolation input of the nesting-limit test:
nine nested `"%(`, the ninth string closed, a sibling ` 1`, and the eight
open interpolations closed by `)"` each. -/
def nestNine : List Char :=
  (List.replicate 9 ['"', '%', '(']).flatten ++ ['"'] ++ [' ', '1'] ++
    (List.replicate 8 [')', '"']).flatten

/-! ## Effect lemmas for the scanning helpers -/

theorem Adv.rfl {s : Parser} : Adv s s :=
  ⟨by rfl, by rfl, by rfl, Nat.le_refl _, by rfl, by rfl, le_max_left _ _⟩

theorem Adv.comp {s s1 s2 : Parser} (h1 : Adv s s1) (h2 : Adv s1 s2) : Adv s s2 := by
  refine ⟨h2.source.trans h1.source, h2.aliased.trans h1.aliased,
    h2.tokenStart.trans h1.tokenStart, h1.cursor.trans h2.cursor,
    h2.spans.trans h1.spans, h2.tokens.trans h1.tokens, ?_⟩
  exact h2.parlen.trans (max_le (h1.parlen) (le_max_right _ _))

theorem adv_nextCharAdv (s : Parser) : Adv s (nextCharAdv s) := by
  unfold nextCharAdv
  split
  · exact ⟨by rfl, by rfl, by rfl, Nat.le_succ _, by rfl, by rfl, le_max_left _ _⟩
  · exact ⟨by rfl, by rfl, by rfl, Nat.le_succ _, by rfl, by rfl, le_max_left _ _⟩

theorem adv_matchCharAdv (c : Char) (s : Parser) : Adv s (matchCharAdv c s) := by
  unfold matchCharAdv
  split
  · exact adv_nextCharAdv s
  · exact Adv.rfl

theorem adv_lexError (k : ErrKind) (s : Parser) : Adv s (lexError k s) :=
  ⟨by rfl, by rfl, by rfl, Nat.le_refl _, by rfl, by rfl, le_max_left _ _⟩

theorem adv_setCurrent (x : Token) (s : Parser) : Adv s { s with current := x } :=
  ⟨by rfl, by rfl, by rfl, Nat.le_refl _, by rfl, by rfl, le_max_left _ _⟩

theorem adv_skipLineComment : ∀ fuel (s s' : Parser),
    skipLineComment fuel s = some s' → Adv s s' := by
  intro fuel
  induction fuel with
  | zero => intro s s' h; exact absurd h (by simp [skipLineComment])
  | succ f ih =>
    intro s s' h
    unfold skipLineComment at h
    split at h
    · exact (adv_nextCharAdv s).comp (ih _ _ h)
    · cases h; exact Adv.rfl

theorem adv_skipBlockComment : ∀ fuel (n : Int) (s s' : Parser),
    skipBlockComment fuel n s = some s' → Adv s s' := by
  intro fuel
  induction fuel with
  | zero => intro n s s' h; exact absurd h (by simp [skipBlockComment])
  | succ f ih =>
    intro n s s' h
    unfold skipBlockComment at h
    split at h
    · split at h
      · cases h; exact adv_lexError _ _
      · split at h
        · exact ((adv_nextCharAdv s).comp (adv_nextCharAdv _)).comp (ih _ _ _ h)
        · split at h
          · exact ((adv_nextCharAdv s).comp (adv_nextCharAdv _)).comp (ih _ _ _ h)
          · exact (adv_nextCharAdv s).comp (ih _ _ _ h)
    · cases h; exact Adv.rfl

theorem adv_skipWs : ∀ fuel (s s' : Parser), skipWs fuel s = some s' → Adv s s' := by
  intro fuel
  induction fuel with
  | zero => intro s s' h; exact absurd h (by simp [skipWs])
  | succ f ih =>
    intro s s' h
    unfold skipWs at h
    split at h
    · exact (adv_nextCharAdv s).comp (ih _ _ h)
    · cases h; exact Adv.rfl

theorem adv_skipDigits : ∀ fuel (s s' : Parser), skipDigits fuel s = some s' → Adv s s' := by
  intro fuel
  induction fuel with
  | zero => intro s s' h; exact absurd h (by simp [skipDigits])
  | succ f ih =>
    intro s s' h
    unfold skipDigits at h
    split at h
    · exact (adv_nextCharAdv s).comp (ih _ _ h)
    · cases h; exact Adv.rfl

theorem adv_skipNameChars : ∀ fuel (s s' : Parser),
    skipNameChars fuel s = some s' → Adv s s' := by
  intro fuel
  induction fuel with
  | zero => intro s s' h; exact absurd h (by simp [skipNameChars])
  | succ f ih =>
    intro s s' h
    unfold skipNameChars at h
    split at h
    · exact (adv_nextCharAdv s).comp (ih _ _ h)
    · cases h; exact Adv.rfl

theorem adv_readHexDigitAdv (s : Parser) : Adv s (readHexDigitAdv s) := by
  unfold readHexDigitAdv nextCharAdv
  split <;> (try split) <;>
    exact ⟨by rfl, by rfl, by rfl, by dsimp only; omega, by rfl, by rfl, le_max_left _ _⟩

theorem hexEscapeGo_adv (desc : String) : ∀ (i v : Nat) (s : Parser),
    (hexEscapeGo desc i v s).2.source = s.source ∧
    (hexEscapeGo desc i v s).2.aliased = s.aliased ∧
    (hexEscapeGo desc i v s).2.tokenStart = s.tokenStart ∧
    s.currentChar - 1 ≤ (hexEscapeGo desc i v s).2.currentChar ∧
    (hexEscapeGo desc i v s).2.spans = s.spans ∧
    (hexEscapeGo desc i v s).2.tokens = s.tokens ∧
    (hexEscapeGo desc i v s).2.parens = s.parens ∧
    (hexEscapeGo desc i v s).2.current = s.current := by
  intro i
  induction i with
  | zero => intro v s; exact ⟨rfl, rfl, rfl, Nat.sub_le _ _, rfl, rfl, rfl, rfl⟩
  | succ i ih =>
    intro v s
    unfold hexEscapeGo
    split
    · exact ⟨rfl, rfl, rfl, Nat.sub_le_sub_right (Nat.le_refl _) 1, rfl, rfl, rfl, rfl⟩
    · dsimp only
      split
      · have hadv := (adv_readHexDigitAdv s).comp (adv_lexError (ErrKind.invalidEscape desc) _)
        have hpar : (readHexDigitAdv s).parens = s.parens := by
          unfold readHexDigitAdv nextCharAdv; split <;> (try split) <;> rfl
        have hcur : (readHexDigitAdv s).current = s.current := by
          unfold readHexDigitAdv nextCharAdv; split <;> (try split) <;> rfl
        refine ⟨hadv.source, hadv.aliased, hadv.tokenStart, ?_, hadv.spans, hadv.tokens,
          ?_, ?_⟩
        · show s.currentChar - 1 ≤
            (lexError (ErrKind.invalidEscape desc) (readHexDigitAdv s)).currentChar
          have := hadv.cursor; omega
        · exact hpar
        · exact hcur
      · have hadv := adv_readHexDigitAdv s
        have hcc : s.currentChar ≤ (readHexDigitAdv s).currentChar := hadv.cursor
        obtain ⟨h1, h2, h3, h4, h5, h6, h7, h8⟩ :=
          ih (Nat.lor (v * 16) (jsOrOperand (readHexDigitVal s))) (readHexDigitAdv s)
        have hpar : (readHexDigitAdv s).parens = s.parens := by
          unfold readHexDigitAdv nextCharAdv; split <;> (try split) <;> rfl
        have hcur : (readHexDigitAdv s).current = s.current := by
          unfold readHexDigitAdv nextCharAdv; split <;> (try split) <;> rfl
        refine ⟨h1.trans hadv.source, h2.trans hadv.aliased, h3.trans hadv.tokenStart,
          ?_, h5.trans hadv.spans, h6.trans hadv.tokens, h7.trans hpar, h8.trans hcur⟩
        omega

/-! ## Projection lemmas for the state transformers -/

@[simp] theorem nextCharAdv_source (s : Parser) : (nextCharAdv s).source = s.source := by
  unfold nextCharAdv; split <;> rfl

@[simp] theorem nextCharAdv_aliased (s : Parser) : (nextCharAdv s).aliased = s.aliased := by
  unfold nextCharAdv; split <;> rfl

@[simp] theorem nextCharAdv_tokenStart (s : Parser) :
    (nextCharAdv s).tokenStart = s.tokenStart := by
  unfold nextCharAdv; split <;> rfl

@[simp] theorem nextCharAdv_currentChar (s : Parser) :
    (nextCharAdv s).currentChar = s.currentChar + 1 := by
  unfold nextCharAdv; split <;> rfl

@[simp] theorem nextCharAdv_spans (s : Parser) : (nextCharAdv s).spans = s.spans := by
  unfold nextCharAdv; split <;> rfl

@[simp] theorem nextCharAdv_tokens (s : Parser) : (nextCharAdv s).tokens = s.tokens := by
  unfold nextCharAdv; split <;> rfl

@[simp] theorem nextCharAdv_parens (s : Parser) : (nextCharAdv s).parens = s.parens := by
  unfold nextCharAdv; split <;> rfl

@[simp] theorem nextCharAdv_current (s : Parser) : (nextCharAdv s).current = s.current := by
  unfold nextCharAdv; split <;> rfl

@[simp] theorem lexError_source (k : ErrKind) (s : Parser) :
    (lexError k s).source = s.source := rfl

@[simp] theorem lexError_aliased (k : ErrKind) (s : Parser) :
    (lexError k s).aliased = s.aliased := rfl

@[simp] theorem lexError_tokenStart (k : ErrKind) (s : Parser) :
    (lexError k s).tokenStart = s.tokenStart := rfl

@[simp] theorem lexError_currentChar (k : ErrKind) (s : Parser) :
    (lexError k s).currentChar = s.currentChar := rfl

@[simp] theorem lexError_spans (k : ErrKind) (s : Parser) :
    (lexError k s).spans = s.spans := rfl

@[simp] theorem lexError_tokens (k : ErrKind) (s : Parser) :
    (lexError k s).tokens = s.tokens := rfl

@[simp] theorem lexError_parens (k : ErrKind) (s : Parser) :
    (lexError k s).parens = s.parens := rfl

@[simp] theorem lexError_current (k : ErrKind) (s : Parser) :
    (lexError k s).current = s.current := rfl

@[simp] theorem makeToken_source (t : TokType) (s : Parser) :
    (makeToken t s).source = s.source := rfl

@[simp] theorem makeToken_aliased (t : TokType) (s : Parser) :
    (makeToken t s).aliased = s.aliased := rfl

@[simp] theorem makeToken_tokenStart (t : TokType) (s : Parser) :
    (makeToken t s).tokenStart = s.tokenStart := rfl

@[simp] theorem makeToken_currentChar (t : TokType) (s : Parser) :
    (makeToken t s).currentChar = s.currentChar := rfl

@[simp] theorem makeToken_parens (t : TokType) (s : Parser) :
    (makeToken t s).parens = s.parens := rfl

@[simp] theorem makeToken_spans (t : TokType) (s : Parser) :
    (makeToken t s).spans = s.spans ++ [⟨s.tokenStart, s.currentChar, SpanKind.tok⟩] := rfl

@[simp] theorem makeToken_tokens (t : TokType) (s : Parser) :
    (makeToken t s).tokens = s.tokens ++
      [⟨t, substr s.source s.tokenStart (s.currentChar - s.tokenStart),
        if t = TokType.LINE then s.currentLine - 1 else s.currentLine⟩] := rfl

@[simp] theorem makeToken_current_type (t : TokType) (s : Parser) :
    (makeToken t s).current.type = some t := rfl

@[simp] theorem matchCharAdv_source (c : Char) (s : Parser) :
    (matchCharAdv c s).source = s.source := by
  unfold matchCharAdv; split
  · exact nextCharAdv_source s
  · rfl

@[simp] theorem matchCharAdv_aliased (c : Char) (s : Parser) :
    (matchCharAdv c s).aliased = s.aliased := by
  unfold matchCharAdv; split
  · exact nextCharAdv_aliased s
  · rfl

@[simp] theorem matchCharAdv_tokenStart (c : Char) (s : Parser) :
    (matchCharAdv c s).tokenStart = s.tokenStart := by
  unfold matchCharAdv; split
  · exact nextCharAdv_tokenStart s
  · rfl

@[simp] theorem matchCharAdv_spans (c : Char) (s : Parser) :
    (matchCharAdv c s).spans = s.spans := by
  unfold matchCharAdv; split
  · exact nextCharAdv_spans s
  · rfl

@[simp] theorem matchCharAdv_tokens (c : Char) (s : Parser) :
    (matchCharAdv c s).tokens = s.tokens := by
  unfold matchCharAdv; split
  · exact nextCharAdv_tokens s
  · rfl

@[simp] theorem matchCharAdv_parens (c : Char) (s : Parser) :
    (matchCharAdv c s).parens = s.parens := by
  unfold matchCharAdv; split
  · exact nextCharAdv_parens s
  · rfl

/-! ## `ReaderOK`: token-reading helpers end in exactly one `makeToken` -/

theorem readerOK_of_adv_makeToken {s sX : Parser} (h : Adv s sX) (t : TokType) :
    ReaderOK s (makeToken t sX) := by
  refine ⟨by simpa using h.source, by simpa using h.aliased, by simpa using h.tokenStart,
    by simpa using h.cursor, by simpa using h.parlen, ?_, ?_⟩
  · rw [makeToken_spans, h.spans, h.tokenStart, makeToken_currentChar]
  · refine ⟨_, by rw [makeToken_tokens, h.tokens], ?_⟩
    show substr sX.source sX.tokenStart (sX.currentChar - sX.tokenStart) =
      substr s.source s.tokenStart ((makeToken t sX).currentChar - s.tokenStart)
    rw [makeToken_currentChar, h.source, h.tokenStart]

theorem ReaderOK.comp_adv {s s1 s2 : Parser} (h : Adv s s1) (hr : ReaderOK s1 s2) :
    ReaderOK s s2 := by
  refine ⟨hr.source.trans h.source, hr.aliased.trans h.aliased,
    hr.tokenStart.trans h.tokenStart, h.cursor.trans hr.cursor,
    hr.parlen.trans (max_le h.parlen (le_max_right _ _)), ?_, ?_⟩
  · rw [hr.spans, h.spans, h.tokenStart]
  · obtain ⟨pt, hpt1, hpt2⟩ := hr.tokens
    exact ⟨pt, by rw [hpt1, h.tokens], by rw [hpt2, h.source, h.tokenStart]⟩

theorem adv_decCursor {s s1 : Parser} (h : Adv s s1) (hc : s.currentChar ≤ s1.currentChar - 1) :
    Adv s { s1 with currentChar := s1.currentChar - 1 } :=
  ⟨h.source, h.aliased, h.tokenStart, hc, h.spans, h.tokens, h.parlen⟩

theorem adv_setParens {s : Parser} (l : List Int) (h : l.length ≤ max s.parens.length 8) :
    Adv s { s with parens := l } :=
  ⟨by rfl, by rfl, by rfl, Nat.le_refl _, by rfl, by rfl, h⟩

theorem readStringGo_readerOK : ∀ fuel ty (s s' : Parser),
    readStringGo fuel ty s = some s' → ReaderOK s s' := by
  intro fuel
  induction fuel with
  | zero => intro ty s s' h; exact absurd h (by simp [readStringGo])
  | succ f ih =>
    intro ty s s' h
    unfold readStringGo at h
    dsimp only at h
    split at h
    · cases h; exact readerOK_of_adv_makeToken (adv_nextCharAdv s) ty
    · split at h
      · -- unterminated string: error, back up one position, emit anyway
        cases h
        refine readerOK_of_adv_makeToken (adv_decCursor
          ((adv_nextCharAdv s).comp (adv_lexError ErrKind.unterminatedString _)) ?_) ty
        simp
      · split at h
        · -- interpolation start
          split at h
          · cases h
            refine readerOK_of_adv_makeToken ?_ TokType.INTERPOLATION
            rename_i hguard
            have hbase : Adv s (nextCharAdv (nextCharAdv s)) :=
              (adv_nextCharAdv s).comp (adv_nextCharAdv _)
            have hpar2 : (nextCharAdv (nextCharAdv s)).parens = s.parens := by simp
            split
            · -- missing '(' after '%': error is reported, push happens anyway
              refine (hbase.comp (adv_lexError ErrKind.expectParenAfterPercent _)).comp
                (adv_setParens _ ?_)
              simp only [MAX_INTERPOLATION_NESTING] at hguard
              simp only [lexError_parens, List.length_cons, hpar2]
              simp only [nextCharAdv_parens] at hguard
              omega
            · refine hbase.comp (adv_setParens _ ?_)
              simp only [MAX_INTERPOLATION_NESTING] at hguard
              simp only [List.length_cons, hpar2]
              simp only [nextCharAdv_parens] at hguard
              omega
          · -- nesting limit exceeded: error, keep scanning the string
            exact ReaderOK.comp_adv
              ((adv_nextCharAdv s).comp (adv_lexError ErrKind.nestTooDeep _)) (ih _ _ _ h)
        · split at h
          · -- backslash escapes
            refine ReaderOK.comp_adv ?_ (ih _ _ _ h)
            have hbase : Adv s (nextCharAdv (nextCharAdv s)) :=
              (adv_nextCharAdv s).comp (adv_nextCharAdv _)
            split
            · exact hbase.comp (adv_setCurrent _ _)
            · split
              · exact hbase.comp (adv_setCurrent _ _)
              · split
                · -- the two-hex-digit escape: the cursor may net-decrease by one
                  obtain ⟨e1, e2, e3, e4, e5, e6, e7, e8⟩ :=
                    hexEscapeGo_adv "byte" 2 0 (nextCharAdv (nextCharAdv s))
                  simp only [readHexEscape]
                  refine Adv.comp ?_ (adv_setCurrent _ _)
                  refine ⟨by rw [e1]; simp, by rw [e2]; simp, by rw [e3]; simp, ?_,
                    by rw [e5]; simp, by rw [e6]; simp, ?_⟩
                  · simp only [nextCharAdv_currentChar] at e4
                    omega
                  · rw [e7]; simpa using le_max_left s.parens.length 8
                · exact hbase.comp (adv_lexError _ _)
          · -- ordinary string character
            exact ReaderOK.comp_adv (adv_nextCharAdv s) (ih _ _ _ h)

theorem readString_readerOK {fuel : Nat} {s s' : Parser}
    (h : readString fuel s = some s') : ReaderOK s s' :=
  readStringGo_readerOK fuel TokType.STRING s s' h

theorem readName_readerOK {fuel : Nat} {ty : TokType} {s s' : Parser}
    (h : readName fuel ty s = some s') : ReaderOK s s' := by
  simp only [readName, Option.bind_eq_some] at h
  obtain ⟨sM, hM, h⟩ := h
  cases h
  exact readerOK_of_adv_makeToken (adv_skipNameChars fuel s sM hM) _

theorem readerOK_makeNumber {s sX : Parser} (h : Adv s sX) (b : Bool) :
    ReaderOK s (makeNumber b sX) :=
  readerOK_of_adv_makeToken (h.comp (adv_setCurrent _ _)) TokType.NUMBER

theorem readNumber_readerOK {fuel : Nat} {s s' : Parser}
    (h : readNumber fuel s = some s') : ReaderOK s s' := by
  simp only [readNumber, Option.bind_eq_some] at h
  obtain ⟨s1, h1, s2, h2, h⟩ := h
  have hadv1 : Adv s s1 := adv_skipDigits fuel s s1 h1
  have hadv2 : Adv s s2 := by
    split at h2
    · exact hadv1.comp ((adv_nextCharAdv s1).comp (adv_skipDigits fuel _ s2 h2))
    · cases h2; exact hadv1
  split at h
  · simp only [Option.bind_eq_some] at h
    obtain ⟨s3, h3, h⟩ := h
    cases h
    refine readerOK_makeNumber (hadv2.comp ?_) false
    refine Adv.comp ?_ (adv_skipDigits fuel _ s3 h3)
    refine (adv_nextCharAdv s2).comp ?_
    refine (adv_matchCharAdv '-' _).comp ?_
    split
    · exact adv_lexError ErrKind.unterminatedSciNotation _
    · exact Adv.rfl
  · cases h
    exact readerOK_makeNumber hadv2 false

theorem readHexLoop_readerOK : ∀ fuel (s s' : Parser),
    readHexLoop fuel s = some s' → ReaderOK s s' := by
  intro fuel
  induction fuel with
  | zero => intro s s' h; exact absurd h (by simp [readHexLoop])
  | succ f ih =>
    intro s s' h
    unfold readHexLoop at h
    split at h
    · exact ReaderOK.comp_adv (adv_readHexDigitAdv s) (ih _ _ h)
    · cases h
      exact readerOK_makeNumber (adv_readHexDigitAdv s) true

theorem readHexNumber_readerOK {fuel : Nat} {s s' : Parser}
    (h : readHexNumber fuel s = some s') : ReaderOK s s' :=
  ReaderOK.comp_adv (adv_nextCharAdv s) (readHexLoop_readerOK fuel _ s' h)

/-! ## Chain lemmas -/

theorem chain_le : ∀ (l : List Span) (a b : Nat), Chain a l b → a ≤ b := by
  intro l
  induction l with
  | nil => intro a b h; exact Nat.le_of_eq h
  | cons sp l ih =>
    intro a b h
    obtain ⟨h1, h2, h3⟩ := h
    exact h2.trans (ih _ _ h3)

theorem chain_append : ∀ (l1 l2 : List Span) (a b c : Nat),
    Chain a l1 b → Chain b l2 c → Chain a (l1 ++ l2) c := by
  intro l1
  induction l1 with
  | nil => intro l2 a b c h1 h2; cases h1; exact h2
  | cons sp l ih =>
    intro l2 a b c h1 h2
    obtain ⟨e1, e2, e3⟩ := h1
    exact ⟨e1, e2, ih _ _ _ _ e3 h2⟩

theorem chain_singleton {a b : Nat} (k : SpanKind) (h : a ≤ b) :
    Chain a [⟨a, b, k⟩] b := ⟨rfl, h, rfl⟩

/-! ## `StepOK` glue lemmas for the scan-loop arms -/

theorem stepOK_glue {s0 s1 s' : Parser}
    (hAdv : Adv { s0 with tokenStart := s0.currentChar } s1)
    (hr : ReaderOK s1 s') : StepOK s0 s' := by
  refine ⟨hr.source.trans hAdv.source, hr.aliased.trans hAdv.aliased,
    Nat.le_trans hAdv.cursor hr.cursor,
    hr.parlen.trans (max_le hAdv.parlen (le_max_right _ _)), ?_⟩
  refine ⟨[⟨s0.currentChar, s'.currentChar, SpanKind.tok⟩], ?_, ?_, ?_, ?_⟩
  · rw [hr.spans, hAdv.spans, hAdv.tokenStart]
  · exact chain_singleton _ (Nat.le_trans hAdv.cursor hr.cursor)
  · intro sp hsp hk
    simp at hsp
    rw [hsp] at hk
    cases hk
  · obtain ⟨pt, hpt1, hpt2⟩ := hr.tokens
    refine ⟨[pt], by rw [hpt1, hAdv.tokens], by simp, ?_⟩
    have hv : pt.value = substr s0.source s0.currentChar (s'.currentChar - s0.currentChar) := by
      rw [hpt2, hAdv.source, hAdv.tokenStart]
    show [pt].map (fun pt => pt.value) =
      List.map (spanSlice s0.source) [⟨s0.currentChar, s'.currentChar, SpanKind.tok⟩]
    simp [hv, spanSlice]

theorem stepOK_token_leaf {s0 sX : Parser} (t : TokType)
    (hAdv : Adv { s0 with tokenStart := s0.currentChar } sX) :
    StepOK s0 (makeToken t sX) :=
  stepOK_glue hAdv (readerOK_of_adv_makeToken Adv.rfl t)

theorem stepOK_skip_leaf {s0 s1 s' : Parser}
    (hAdv : Adv { s0 with tokenStart := s0.currentChar } s1)
    (hgo : StepOK (recordSkip s1) s') : StepOK s0 s' := by
  have hrs_source : (recordSkip s1).source = s1.source := rfl
  have hrs_cc : (recordSkip s1).currentChar = s1.currentChar := rfl
  refine ⟨hgo.source.trans hAdv.source, hgo.aliased.trans hAdv.aliased,
    Nat.le_trans hAdv.cursor hgo.cursor,
    hgo.parlen.trans (max_le hAdv.parlen (le_max_right _ _)), ?_⟩
  obtain ⟨d, hd1, hd2, hd3, t, ht1, ht2, ht3⟩ := hgo.spans
  refine ⟨⟨s0.currentChar, s1.currentChar, SpanKind.skip⟩ :: d, ?_, ?_, ?_, ?_⟩
  · have : (recordSkip s1).spans = s1.spans ++ [⟨s1.tokenStart, s1.currentChar, SpanKind.skip⟩] :=
      rfl
    rw [hd1, this, hAdv.spans, hAdv.tokenStart]
    simp
  · exact ⟨rfl, hAdv.cursor, hd2⟩
  · intro sp hsp hk
    cases hsp with
    | head => simp at hk
    | tail b hmem => exact hd3 sp hmem hk
  · refine ⟨t, ?_, ht2, ?_⟩
    · have : (recordSkip s1).tokens = s1.tokens := rfl
      rw [ht1, this, hAdv.tokens]
    · rw [ht3]
      have hsrc : (recordSkip s1).source = s0.source := hAdv.source
      rw [hsrc]
      have : ((⟨s0.currentChar, s1.currentChar, SpanKind.skip⟩ : Span) :: d).filter
          (fun sp => sp.kind == SpanKind.tok) = d.filter (fun sp => sp.kind == SpanKind.tok) := by
        rfl
      rw [this]

theorem stepOK_err_leaf {s0 sX : Parser} (x : Token)
    (hAdv : Adv { s0 with tokenStart := s0.currentChar } sX)
    (hcc : sX.currentChar = s0.currentChar + 1) :
    StepOK s0 (recordErrByte { sX with current := x }) := by
  have hcc2 : (recordErrByte { sX with current := x }).currentChar = s0.currentChar + 1 := hcc
  refine ⟨hAdv.source, hAdv.aliased, by rw [hcc2]; omega, hAdv.parlen, ?_⟩
  refine ⟨[⟨s0.currentChar, s0.currentChar + 1, SpanKind.err⟩], ?_, ?_, ?_, ?_⟩
  · have : (recordErrByte { sX with current := x }).spans =
        sX.spans ++ [⟨sX.tokenStart, sX.currentChar, SpanKind.err⟩] := rfl
    rw [this, hAdv.spans, hAdv.tokenStart, hcc]
  · rw [hcc2]
    exact chain_singleton _ (Nat.le_succ _)
  · intro sp hsp hk
    simp at hsp
    rw [hsp]
  · refine ⟨[], ?_, by simp, by rfl⟩
    have : (recordErrByte { sX with current := x }).tokens = sX.tokens := rfl
    rw [this, hAdv.tokens]
    simp

theorem scanDispatch_stepOK (f : Nat) (go : Parser → Option Parser)
    (hgo : ∀ s s', go s = some s' → StepOK s s')
    (c : Option Char) (s0 s1 s' : Parser)
    (hAdv : Adv { s0 with tokenStart := s0.currentChar } s1)
    (hcc : s1.currentChar = s0.currentChar + 1)
    (h : scanDispatch f go c s1 = some s') : StepOK s0 s' := by
  delta scanDispatch at h
  by_cases hc1 : c = some '('
  · rw [if_pos hc1] at h
    split at h
    · rename_i p rest heq
      cases h
      refine stepOK_token_leaf _ (hAdv.comp (adv_setParens _ ?_))
      rw [heq]
      simp only [List.length_cons]
      exact le_max_left _ _
    · cases h
      exact stepOK_token_leaf _ hAdv
  rw [if_neg hc1] at h
  by_cases hc2 : c = some ')'
  · rw [if_pos hc2] at h
    split at h
    · rename_i p rest heq
      split at h
      · refine stepOK_glue (hAdv.comp (adv_setParens _ ?_)) (readString_readerOK h)
        rw [heq]
        simp only [List.length_cons]
        exact le_trans (Nat.le_succ _) (le_max_left _ _)
      · cases h
        refine stepOK_token_leaf _ (hAdv.comp (adv_setParens _ ?_))
        rw [heq]
        simp only [List.length_cons]
        exact le_max_left _ _
    · cases h
      exact stepOK_token_leaf _ hAdv
  rw [if_neg hc2] at h
  by_cases hc3 : c = some '['
  · rw [if_pos hc3] at h
    cases h; exact stepOK_token_leaf _ hAdv
  rw [if_neg hc3] at h
  by_cases hc4 : c = some ']'
  · rw [if_pos hc4] at h
    cases h; exact stepOK_token_leaf _ hAdv
  rw [if_neg hc4] at h
  by_cases hc5 : c = some '{'
  · rw [if_pos hc5] at h
    cases h; exact stepOK_token_leaf _ hAdv
  rw [if_neg hc5] at h
  by_cases hc6 : c = some '}'
  · rw [if_pos hc6] at h
    cases h; exact stepOK_token_leaf _ hAdv
  rw [if_neg hc6] at h
  by_cases hc7 : c = some ':'
  · rw [if_pos hc7] at h
    cases h; exact stepOK_token_leaf _ hAdv
  rw [if_neg hc7] at h
  by_cases hc8 : c = some ','
  · rw [if_pos hc8] at h
    cases h; exact stepOK_token_leaf _ hAdv
  rw [if_neg hc8] at h
  by_cases hc9 : c = some '*'
  · rw [if_pos hc9] at h
    cases h; exact stepOK_token_leaf _ hAdv
  rw [if_neg hc9] at h
  by_cases hc10 : c = some '%'
  · rw [if_pos hc10] at h
    cases h; exact stepOK_token_leaf _ hAdv
  rw [if_neg hc10] at h
  by_cases hc11 : c = some '^'
  · rw [if_pos hc11] at h
    cases h; exact stepOK_token_leaf _ hAdv
  rw [if_neg hc11] at h
  by_cases hc12 : c = some '+'
  · rw [if_pos hc12] at h
    cases h; exact stepOK_token_leaf _ hAdv
  rw [if_neg hc12] at h
  by_cases hc13 : c = some '-'
  · rw [if_pos hc13] at h
    cases h; exact stepOK_token_leaf _ hAdv
  rw [if_neg hc13] at h
  by_cases hc14 : c = some '~'
  · rw [if_pos hc14] at h
    cases h; exact stepOK_token_leaf _ hAdv
  rw [if_neg hc14] at h
  by_cases hc15 : c = some '?'
  · rw [if_pos hc15] at h
    cases h; exact stepOK_token_leaf _ hAdv
  rw [if_neg hc15] at h
  by_cases hc16 : c = some '|'
  · rw [if_pos hc16] at h
    cases h; exact stepOK_token_leaf _ (hAdv.comp (adv_matchCharAdv _ _))
  rw [if_neg hc16] at h
  by_cases hc17 : c = some '&'
  · rw [if_pos hc17] at h
    cases h; exact stepOK_token_leaf _ (hAdv.comp (adv_matchCharAdv _ _))
  rw [if_neg hc17] at h
  by_cases hc18 : c = some '='
  · rw [if_pos hc18] at h
    cases h; exact stepOK_token_leaf _ (hAdv.comp (adv_matchCharAdv _ _))
  rw [if_neg hc18] at h
  by_cases hc19 : c = some '!'
  · rw [if_pos hc19] at h
    cases h; exact stepOK_token_leaf _ (hAdv.comp (adv_matchCharAdv _ _))
  rw [if_neg hc19] at h
  by_cases hc20 : c = some '.'
  · rw [if_pos hc20] at h
    split at h
    · cases h
      exact stepOK_token_leaf _
        ((hAdv.comp (adv_nextCharAdv _)).comp (adv_matchCharAdv _ _))
    · cases h; exact stepOK_token_leaf _ hAdv
  rw [if_neg hc20] at h
  by_cases hc21 : c = some '/'
  · rw [if_pos hc21] at h
    split at h
    · rw [Option.bind_eq_some] at h
      obtain ⟨sM, hM, hgo2⟩ := h
      exact stepOK_skip_leaf
        ((hAdv.comp (adv_nextCharAdv _)).comp (adv_skipLineComment f _ sM hM)) (hgo _ _ hgo2)
    · split at h
      · rw [Option.bind_eq_some] at h
        obtain ⟨sM, hM, hgo2⟩ := h
        exact stepOK_skip_leaf
          ((hAdv.comp (adv_nextCharAdv _)).comp (adv_skipBlockComment f 1 _ sM hM))
          (hgo _ _ hgo2)
      · cases h; exact stepOK_token_leaf _ hAdv
  rw [if_neg hc21] at h
  by_cases hc22 : c = some '<'
  · rw [if_pos hc22] at h
    split at h
    · cases h; exact stepOK_token_leaf _ (hAdv.comp (adv_nextCharAdv _))
    · cases h; exact stepOK_token_leaf _ (hAdv.comp (adv_matchCharAdv _ _))
  rw [if_neg hc22] at h
  by_cases hc23 : c = some '>'
  · rw [if_pos hc23] at h
    split at h
    · cases h; exact stepOK_token_leaf _ (hAdv.comp (adv_nextCharAdv _))
    · cases h; exact stepOK_token_leaf _ (hAdv.comp (adv_matchCharAdv _ _))
  rw [if_neg hc23] at h
  by_cases hc24 : c = some '\n'
  · rw [if_pos hc24] at h
    cases h; exact stepOK_token_leaf _ hAdv
  rw [if_neg hc24] at h
  by_cases hc25 : c = some ' ' ∨ c = some '\r' ∨ c = some '\t'
  · rw [if_pos hc25] at h
    rw [Option.bind_eq_some] at h
    obtain ⟨sM, hM, hgo2⟩ := h
    exact stepOK_skip_leaf (hAdv.comp (adv_skipWs f _ sM hM)) (hgo _ _ hgo2)
  rw [if_neg hc25] at h
  by_cases hc26 : c = some '\"'
  · rw [if_pos hc26] at h
    exact stepOK_glue hAdv (readString_readerOK h)
  rw [if_neg hc26] at h
  by_cases hc27 : c = some '_'
  · rw [if_pos hc27] at h
    exact stepOK_glue hAdv (readName_readerOK h)
  rw [if_neg hc27] at h
  by_cases hc28 : c = some '0'
  · rw [if_pos hc28] at h
    split at h
    · exact stepOK_glue hAdv (readHexNumber_readerOK h)
    · exact stepOK_glue hAdv (readNumber_readerOK h)
  rw [if_neg hc28] at h
  by_cases hc29 : c = some '#' ∧ s1.currentLine = 1 ∧ peekChar s1 = some '!'
  · rw [if_pos hc29] at h
    rw [Option.bind_eq_some] at h
    obtain ⟨sM, hM, hgo2⟩ := h
    exact stepOK_skip_leaf (hAdv.comp (adv_skipLineComment f _ sM hM)) (hgo _ _ hgo2)
  rw [if_neg hc29] at h
  by_cases hc30 : isNameO c = true
  · rw [if_pos hc30] at h
    exact stepOK_glue hAdv (readName_readerOK h)
  rw [if_neg hc30] at h
  by_cases hc31 : isDigitO c = true
  · rw [if_pos hc31] at h
    exact stepOK_glue hAdv (readNumber_readerOK h)
  rw [if_neg hc31] at h
  -- invalid character / invalid byte
  split at h
  · cases h
    exact stepOK_err_leaf _ (hAdv.comp (adv_lexError _ _)) (by rw [lexError_currentChar, hcc])
  · cases h
    exact stepOK_err_leaf _ (hAdv.comp (adv_lexError _ _)) (by rw [lexError_currentChar, hcc])

theorem scanCase_stepOK (f : Nat) (go : Parser → Option Parser)
    (hgo : ∀ s s', go s = some s' → StepOK s s')
    (s0 s' : Parser) (h : scanCase f go s0 = some s') : StepOK s0 s' := by
  unfold scanCase at h
  exact scanDispatch_stepOK f go hgo _ s0 _ s' (adv_nextCharAdv _) (by simp) h

theorem scanLoop_stepOK : ∀ fuel (s s' : Parser),
    scanLoop fuel s = some s' → StepOK s s' := by
  intro fuel
  induction fuel with
  | zero => intro s s' h; exact absurd h (by simp [scanLoop])
  | succ f ih =>
    intro s s' h
    unfold scanLoop at h
    split at h
    · exact scanCase_stepOK f (scanLoop f) ih s s' h
    · cases h
      exact stepOK_token_leaf TokType.EOF Adv.rfl

theorem nextToken_nextOK {fuel : Nat} {s s' : Parser}
    (h : nextToken fuel s = some s') : NextOK s s' := by
  unfold nextToken at h
  dsimp only at h
  split at h
  · cases h
    exact ⟨rfl, rfl, Nat.le_refl _, le_max_left _ _,
      ⟨[], by simp, rfl, by simp, [], by simp, by simp, by simp [List.filter]⟩⟩
  · have hs := scanLoop_stepOK fuel _ s' h
    refine ⟨hs.source, ?_, hs.cursor, hs.parlen, hs.spans⟩
    rw [hs.aliased]

/-! ## Coverage: chained spans reconstruct the consumed prefix -/

theorem substr_append {src : List Char} {a b c : Nat} (h1 : a ≤ b) (h2 : b ≤ c) :
    substr src a (b - a) ++ substr src b (c - b) = substr src a (c - a) := by
  unfold substr
  have hc : c - a = (b - a) + (c - b) := by omega
  rw [hc, List.take_add, List.drop_drop]
  have hb : a + (b - a) = b := by omega
  rw [hb]

theorem chain_join (src : List Char) : ∀ (l : List Span) (a b : Nat), Chain a l b →
    (l.map (spanSlice src)).flatten = substr src a (b - a) := by
  intro l
  induction l with
  | nil =>
    intro a b h
    cases h
    simp [substr]
  | cons sp l ih =>
    intro a b h
    obtain ⟨e1, e2, e3⟩ := h
    have hb := chain_le l sp.stop b e3
    simp only [List.map_cons, List.flatten_cons]
    rw [ih _ _ e3]
    show substr src sp.start (sp.stop - sp.start) ++ _ = _
    rw [e1]
    exact substr_append e2 hb

/-! ## Per-call and per-run invariants -/

theorem nextToken_parlen {fuel : Nat} {s s' : Parser} (h : nextToken fuel s = some s')
    (hp : s.parens.length ≤ 8) : s'.parens.length ≤ 8 :=
  le_trans (nextToken_nextOK h).parlen (max_le hp (Nat.le_refl 8))

theorem nextToken_tokens_le {fuel : Nat} {s s' : Parser} (h : nextToken fuel s = some s') :
    s'.tokens.length ≤ s.tokens.length + 1 := by
  obtain ⟨d, hd1, hd2, hd3, t, ht1, ht2, ht3⟩ := (nextToken_nextOK h).spans
  rw [ht1, List.length_append]
  omega

theorem iterTok_tokens_le : ∀ (n fuel : Nat) (s s' : Parser),
    iterTok fuel n s = some s' → s'.tokens.length ≤ s.tokens.length + n := by
  intro n
  induction n with
  | zero =>
    intro fuel s s' h
    cases h
    omega
  | succ n ih =>
    intro fuel s s' h
    rw [show iterTok fuel (n + 1) s = (nextToken fuel s).bind (iterTok fuel n) from rfl,
      Option.bind_eq_some] at h
    obtain ⟨sM, hM, hIt⟩ := h
    have := nextToken_tokens_le hM
    have := ih fuel sM s' hIt
    omega

theorem nextToken_c2inv {fuel : Nat} {s s' : Parser} (h : nextToken fuel s = some s')
    (h1 : Chain 0 s.spans s.currentChar)
    (h2 : s.tokens.map (fun pt => pt.value) =
      (s.spans.filter (fun sp => sp.kind == SpanKind.tok)).map (spanSlice s.source))
    (h3 : ∀ sp ∈ s.spans, sp.kind = SpanKind.err → sp.stop = sp.start + 1) :
    s'.source = s.source ∧ Chain 0 s'.spans s'.currentChar ∧
    s'.tokens.map (fun pt => pt.value) =
      (s'.spans.filter (fun sp => sp.kind == SpanKind.tok)).map (spanSlice s'.source) ∧
    (∀ sp ∈ s'.spans, sp.kind = SpanKind.err → sp.stop = sp.start + 1) := by
  have hn := nextToken_nextOK h
  obtain ⟨d, hd1, hd2, hd3, t, ht1, ht2, ht3⟩ := hn.spans
  refine ⟨hn.source, ?_, ?_, ?_⟩
  · rw [hd1]
    exact chain_append _ _ _ _ _ h1 hd2
  · rw [ht1, hd1, hn.source, List.map_append, List.filter_append, List.map_append, h2, ht3]
  · intro sp hsp hk
    rw [hd1] at hsp
    rcases List.mem_append.mp hsp with hm | hm
    · exact h3 sp hm hk
    · exact hd3 sp hm hk

theorem iterTok_c2inv : ∀ (n fuel : Nat) (s s' : Parser),
    iterTok fuel n s = some s' →
    Chain 0 s.spans s.currentChar →
    s.tokens.map (fun pt => pt.value) =
      (s.spans.filter (fun sp => sp.kind == SpanKind.tok)).map (spanSlice s.source) →
    (∀ sp ∈ s.spans, sp.kind = SpanKind.err → sp.stop = sp.start + 1) →
    s'.source = s.source ∧ Chain 0 s'.spans s'.currentChar ∧
    s'.tokens.map (fun pt => pt.value) =
      (s'.spans.filter (fun sp => sp.kind == SpanKind.tok)).map (spanSlice s'.source) ∧
    (∀ sp ∈ s'.spans, sp.kind = SpanKind.err → sp.stop = sp.start + 1) := by
  intro n
  induction n with
  | zero =>
    intro fuel s s' h h1 h2 h3
    cases h
    exact ⟨rfl, h1, h2, h3⟩
  | succ n ih =>
    intro fuel s s' h h1 h2 h3
    rw [show iterTok fuel (n + 1) s = (nextToken fuel s).bind (iterTok fuel n) from rfl,
      Option.bind_eq_some] at h
    obtain ⟨sM, hM, hIt⟩ := h
    obtain ⟨e1, e2, e3, e4⟩ := nextToken_c2inv hM h1 h2 h3
    obtain ⟨f1, f2, f3, f4⟩ := ih fuel sM s' hIt e2 e3 e4
    exact ⟨f1.trans e1, f2, f3, f4⟩

/-! ## Behavior at and past the end of the buffer -/

theorem nextToken_offEnd {fuel : Nat} {s : Parser} (hpeek : peekChar s = none)
    (hne : s.current.type ≠ some TokType.EOF) :
    nextToken (fuel + 1) s = some (errStep s) := by
  have hpk : s.source[s.currentChar]? = none := hpeek
  unfold nextToken
  dsimp only
  rw [if_neg hne]
  unfold scanLoop
  rw [if_pos (by dsimp only [peekChar]; rw [hpk]; simp)]
  unfold scanCase
  dsimp only [peekChar]
  rw [hpk]
  have hnca : nextCharAdv { s with
      previous := s.current, aliased := true,
      tokenStart := s.currentChar } =
      { s with
        previous := s.current, aliased := true, tokenStart := s.currentChar,
        currentChar := s.currentChar + 1 } := by
    unfold nextCharAdv
    dsimp only [peekChar]
    rw [hpk]
    rw [if_neg (by simp)]
  rw [hnca]
  rfl

theorem readStringGo_offEnd : ∀ (fuel : Nat) (ty : TokType) (s : Parser),
    s.source.length ≤ s.currentChar → readStringGo fuel ty s = none := by
  intro fuel
  induction fuel with
  | zero => intro ty s h; rfl
  | succ f ih =>
    intro ty s h
    have hpk : s.source[s.currentChar]? = none := List.getElem?_eq_none h
    unfold readStringGo
    dsimp only [peekChar]
    rw [hpk]
    show readStringGo f ty (nextCharAdv s) = none
    refine ih ty _ ?_
    rw [nextCharAdv_source, nextCharAdv_currentChar]
    omega

theorem c1_empty_iter : ∀ (n fuel : Nat) (s : Parser), s.source = [] →
    s.current.type ≠ some TokType.EOF →
    ∃ s', iterTok (fuel + 1) n s = some s' ∧ s'.source = [] ∧
      s'.current.type ≠ some TokType.EOF ∧ s'.currentChar = s.currentChar + n := by
  intro n
  induction n with
  | zero =>
    intro fuel s h1 h2
    exact ⟨s, rfl, h1, h2, rfl⟩
  | succ n ih =>
    intro fuel s h1 h2
    have hpeek : peekChar s = none := by unfold peekChar; rw [h1]; rfl
    have hstep := @nextToken_offEnd fuel s hpeek h2
    obtain ⟨s', hiter, e1, e2, e3⟩ :=
      ih fuel (errStep s) h1 (by unfold errStep; simp)
    refine ⟨s', ?_, e1, e2, ?_⟩
    · show (nextToken (fuel + 1) s).bind (iterTok (fuel + 1) n) = some s'
      rw [hstep]
      exact hiter
    · rw [e3]
      show s.currentChar + 1 + n = s.currentChar + (n + 1)
      omega

/-! ## The claims -/

/-- Claim C1: the claim that scanning any finite buffer terminates with `EOF`
(and that the cursor stays bounded by the buffer length) fails on the code:
JavaScript string indexing past the end yields `undefined`, not `'\0'`, so on
the empty buffer every `nextToken` call emits a zero-length `ERROR` token and
the cursor grows without bound past the buffer length, while `TOKEN_EOF` is
never produced; and on the unterminated string `"` the single `nextToken`
call never returns at all (the `readString` loop diverges, shown here as
returning `none` for every fuel). -/
theorem c1_no_eof_and_divergence :
    (∀ fuel n : Nat, ∃ s', iterTok (fuel + 1) n (initParser []) = some s' ∧
      s'.current.type ≠ some TokType.EOF ∧ s'.currentChar = n) ∧
    (∀ fuel : Nat, nextToken fuel (initParser ['"']) = none) := by
  constructor
  · intro fuel n
    obtain ⟨s', h1, _, h3, h4⟩ :=
      c1_empty_iter n fuel (initParser []) rfl (by unfold initParser; simp)
    exact ⟨s', h1, h3, by simpa [initParser] using h4⟩
  · intro fuel
    cases fuel with
    | zero => rfl
    | succ f =>
      have e0 : nextToken (f + 1) (initParser ['"']) =
          readStringGo f TokType.STRING
            { initParser ['"'] with aliased := true, currentChar := 1 } := rfl
      rw [e0]
      exact readStringGo_offEnd f _ _ (by simp [initParser])

/-- Claim C2 (amended): the consumed prefix of the buffer is tiled, in
production order and without overlap, by the ghost spans of the scan — each
produced token's lexeme (exactly the slice `[tokenStart, tokenStart+length)`
of `source`), each skipped whitespace/comment stretch, and one one-byte span
per invalid byte.  Concatenating all lexemes and skipped spans therefore
reconstructs the consumed prefix of the buffer *except* for the bytes
consumed as zero-length `ERROR` tokens (which belong to no lexeme; see the
counterexample), and pushed-token lexemes appear in non-decreasing start
order. -/
theorem c2_lexeme_coverage_amended (src : List Char) (fuel n : Nat) (s' : Parser)
    (h : iterTok fuel n (initParser src) = some s') :
    s'.source = src ∧
    Chain 0 s'.spans s'.currentChar ∧
    (s'.spans.map (spanSlice src)).flatten = src.take s'.currentChar ∧
    s'.tokens.map (fun pt => pt.value) =
      (s'.spans.filter (fun sp => sp.kind == SpanKind.tok)).map (spanSlice src) ∧
    (∀ sp ∈ s'.spans, sp.kind = SpanKind.err → sp.stop = sp.start + 1) := by
  obtain ⟨e1, e2, e3, e4⟩ := iterTok_c2inv n fuel (initParser src) s' h rfl rfl
    (by intro sp hsp; cases hsp)
  have hflat := chain_join src s'.spans 0 s'.currentChar e2
  refine ⟨e1, e2, ?_, by rw [e3, e1]; rfl, e4⟩
  rw [hflat]
  unfold substr
  simp

/-- Claim C2, counterexample to the claim as stated: on the buffer `"@"` the
whole input is consumed (the cursor ends at the buffer length), yet the
concatenation of all token lexemes and skipped whitespace/comment spans is
empty — the invalid byte `'@'` is consumed for a zero-length `ERROR` token
and belongs to no lexeme, so the original buffer is not reconstructed. -/
theorem c2_coverage_counterexample :
    (iterTok 100 1 (initParser ['@'])).map (fun s =>
      (((s.spans.filter (fun sp =>
          sp.kind == SpanKind.tok || sp.kind == SpanKind.skip)).map
        (spanSlice ['@'])).flatten, s.currentChar, s.tokens)) =
      some (([] : List Char), 1, ([] : List PushedTok)) ∧
    (['@'] : List Char) ≠ [] ∧ (['@'] : List Char).length = 1 := by
  exact ⟨rfl, by simp, rfl⟩

/-- Claim C2 witness: the amended coverage statement evaluated on the
two-token run of the buffer `"a b"`. -/
theorem c2_lexeme_coverage_amended_witness :
    Chain 0 ((iterTok 50 2 (initParser ("a b".toList))).getD (initParser [])).spans
      ((iterTok 50 2 (initParser ("a b".toList))).getD (initParser [])).currentChar ∧
    (((iterTok 50 2 (initParser ("a b".toList))).getD (initParser [])).spans.map
      (spanSlice ("a b".toList))).flatten =
      ("a b".toList).take
        ((iterTok 50 2 (initParser ("a b".toList))).getD (initParser [])).currentChar :=
  ⟨(c2_lexeme_coverage_amended ("a b".toList) 50 2 _ rfl).2.1,
    (c2_lexeme_coverage_amended ("a b".toList) 50 2 _ rfl).2.2.1⟩

/-- Claim C3: the claim's numeric values fail on the code.  `makeNumber`
computes `parseInt(this.tokenStart, 16)` / `parseFloat(this.tokenStart)` —
parsing the *numeric byte offset* `tokenStart`, not the lexeme — so `0x1A`
(at offset `0`) gets value `0`, not `26`; likewise `3.14` and `2e-3` get `0`.
The lexing boundaries themselves are as claimed: `1.toString` lexes as
`NUMBER "1"`, `DOT`, `NAME "toString"`, and `2e` reports an unterminated
scientific-notation error. -/
theorem c3_number_value_from_offset :
    (iterTok 100 1 (initParser ("0x1A".toList))).map
      (fun s => (s.current.type, s.current.value)) =
      some (some TokType.NUMBER, JsVal.numI 0) ∧
    (iterTok 100 1 (initParser ("3.14".toList))).map (fun s => s.current.value) =
      some (JsVal.numI 0) ∧
    (iterTok 100 1 (initParser ("2e-3".toList))).map (fun s => s.current.value) =
      some (JsVal.numI 0) ∧
    (iterTok 100 3 (initParser ("1.toString".toList))).map
      (fun s => s.tokens.map (fun pt => (pt.type, pt.value))) =
      some [(TokType.NUMBER, ['1']), (TokType.DOT, ['.']),
        (TokType.NAME, "toString".toList)] ∧
    (iterTok 100 1 (initParser ("2e".toList))).map (fun s => s.errors) =
      some [((0 : Int), ErrKind.unterminatedSciNotation)] ∧
    JsVal.numI 0 ≠ JsVal.numI 26 :=
  ⟨rfl, rfl, rfl, rfl, rfl, by simp⟩

/-- Claim C4: a `)` consumed while the interpolation stack is non-empty whose
decrement brings the top counter to zero is not emitted as `RIGHT_PAREN` —
the stack is popped and string-body scanning resumes immediately; every other
`)` is emitted as a plain `RIGHT_PAREN`.  On `"a %(1+2) b"` the pushed tokens
are `INTERPOLATION`, `NUMBER`, `PLUS`, `NUMBER`, `STRING` with stack depth
zero at the end. -/
theorem c4_rparen_interpolation (f : Nat) (s : Parser) (p : Int) (rest : List Int)
    (h1 : peekChar s = some ')') (h2 : s.current.type ≠ some TokType.EOF) :
    (s.parens = 1 :: rest →
      nextToken (f + 1) s = readString f
        { s with
          previous := s.current, aliased := true, tokenStart := s.currentChar,
          currentChar := s.currentChar + 1, parens := rest }) ∧
    (s.parens = p :: rest → p ≠ 1 →
      nextToken (f + 1) s = some (makeToken TokType.RIGHT_PAREN
        { s with
          previous := s.current, aliased := true, tokenStart := s.currentChar,
          currentChar := s.currentChar + 1, parens := (p - 1) :: rest })) ∧
    (s.parens = [] →
      nextToken (f + 1) s = some (makeToken TokType.RIGHT_PAREN
        { s with
          previous := s.current, aliased := true, tokenStart := s.currentChar,
          currentChar := s.currentChar + 1 })) ∧
    (iterTok 200 5 (initParser ("\"a %(1+2) b\"".toList))).map
      (fun st => (st.tokens.map (fun pt => (pt.type, pt.value)), st.parens)) =
      some ([(TokType.INTERPOLATION, "\"a %(".toList), (TokType.NUMBER, ['1']),
        (TokType.PLUS, ['+']), (TokType.NUMBER, ['2']),
        (TokType.STRING, ") b\"".toList)], []) := by
  have hpk : s.source[s.currentChar]? = some ')' := h1
  have e0 : nextToken (f + 1) s = scanDispatch f (scanLoop f) (some ')')
      { s with
        previous := s.current, aliased := true, tokenStart := s.currentChar,
        currentChar := s.currentChar + 1 } := by
    unfold nextToken
    dsimp only
    rw [if_neg h2]
    unfold scanLoop
    rw [if_pos (by dsimp only [peekChar]; rw [hpk]; simp)]
    unfold scanCase
    dsimp only [peekChar]
    rw [hpk]
    congr 1
    unfold nextCharAdv
    dsimp only [peekChar]
    rw [hpk]
    rw [if_neg (by simp)]
  have edis : scanDispatch f (scanLoop f) (some ')')
      { s with
        previous := s.current, aliased := true, tokenStart := s.currentChar,
        currentChar := s.currentChar + 1 } =
      match s.parens with
      | q :: qrest =>
        if q - 1 = 0 then readString f
          { s with
            previous := s.current, aliased := true, tokenStart := s.currentChar,
            currentChar := s.currentChar + 1, parens := qrest }
        else some (makeToken TokType.RIGHT_PAREN
          { s with
            previous := s.current, aliased := true, tokenStart := s.currentChar,
            currentChar := s.currentChar + 1, parens := (q - 1) :: qrest })
      | [] => some (makeToken TokType.RIGHT_PAREN
          { s with
            previous := s.current, aliased := true, tokenStart := s.currentChar,
            currentChar := s.currentChar + 1 }) := rfl
  refine ⟨?_, ?_, ?_, rfl⟩
  · intro hp
    rw [e0, edis, hp]
    rfl
  · intro hp hne1
    rw [e0, edis, hp]
    dsimp only
    rw [if_neg (by omega)]
  · intro hp
    rw [e0, edis, hp]

/-- Claim C4 witness: the `)` step applied at a concrete state with stack
`[1]`: the `)` pops the stack and resumes string scanning. -/
theorem c4_rparen_interpolation_witness :
    nextToken (10 + 1) { initParser [')'] with parens := [(1 : Int)] } =
      readString 10 { initParser [')'] with
        previous := (initParser [')']).current,
        aliased := true, tokenStart := 0, currentChar := 0 + 1, parens := ([] : List Int) } :=
  (c4_rparen_interpolation 10 { initParser [')'] with parens := [(1 : Int)] } 0 []
    rfl (by unfold initParser; simp)).1 rfl

/-- Claim C5: at every reachable scanner state the interpolation stack depth
is at most `MAX_INTERPOLATION_NESTING = 8`; and on a string with nine nested
`%(` interpolations exactly one nest-too-deep error is reported (at the
ninth, which is not pushed — the scan degrades to continuing the string),
after which the sibling tokens are scanned correctly and the stack drains
back to empty. -/
theorem c5_nesting_bound_and_example :
    (∀ s : Parser, Reachable s → s.parens.length ≤ MAX_INTERPOLATION_NESTING) ∧
    (iterTok 200 18 (initParser nestNine)).map
      (fun s => (s.errors, s.parens, s.tokens.map (fun pt => pt.type))) =
      some ([((0 : Int), ErrKind.nestTooDeep)], ([] : List Int),
        [TokType.INTERPOLATION, TokType.INTERPOLATION, TokType.INTERPOLATION,
         TokType.INTERPOLATION, TokType.INTERPOLATION, TokType.INTERPOLATION,
         TokType.INTERPOLATION, TokType.INTERPOLATION, TokType.STRING,
         TokType.NUMBER, TokType.STRING, TokType.STRING, TokType.STRING,
         TokType.STRING, TokType.STRING, TokType.STRING, TokType.STRING,
         TokType.STRING]) := by
  constructor
  · intro s hs
    induction hs with
    | init src => exact Nat.zero_le 8
    | step fuel hr heq ih => exact nextToken_parlen heq ih
  · rfl

/-- Claim C5 witness: the nesting bound at a reachable state. -/
theorem c5_nesting_bound_witness :
    (initParser nestNine).parens.length ≤ MAX_INTERPOLATION_NESTING :=
  c5_nesting_bound_and_example.1 (initParser nestNine) (Reachable.init nestNine)

/-- Claim C6: the claim's 1-based line numbers fail on the code: the
constructor initializes `currentLine` to `0` although its own comment calls
it "the 1-based line number", so every reported line is one less than the
claim states.  On `a\nb\nc\nd` the `LINE` token for the newline ending the
third source line reports line `2` (the claim says `3`) and the following
token reports `3` (the claim says `4`); the decrement-by-one mechanism for
`LINE` tokens itself is present. -/
theorem c6_line_numbers_off_by_one :
    (iterTok 100 7 (initParser ("a\nb\nc\nd".toList))).map
      (fun s => s.tokens.map (fun pt => (pt.type, pt.line))) =
      some [(TokType.NAME, 0), (TokType.LINE, 0), (TokType.NAME, 1), (TokType.LINE, 1),
        (TokType.NAME, 2), (TokType.LINE, 2), (TokType.NAME, 3)] ∧
    (initParser []).currentLine = 0 ∧ ((2 : Int) ≠ 3 ∧ (3 : Int) ≠ 4) :=
  ⟨rfl, rfl, by simp, by simp⟩

/-- Claim C7: the claim that after each call `previous` holds the pre-call
`current` fails on the code: `this.previous = this.current` copies an object
*reference* and `makeToken` mutates the shared object's fields in place, so
after every `nextToken` call `previous` aliases `current` and reads back as
the *new* token.  On `a b`, after the second call `previous` is the `b` token
(start offset 2), not the `a` token (start offset 0) that was in `current`
before the call. -/
theorem c7_previous_aliases_current :
    (∀ (fuel : Nat) (s s' : Parser), nextToken fuel s = some s' →
      s'.aliased = true ∧ getPrevious s' = s'.current) ∧
    ((iterTok 50 1 (initParser ("a b".toList))).map (fun s => s.current.start) =
      some (some 0) ∧
     (iterTok 50 2 (initParser ("a b".toList))).map
       (fun s => (s.aliased, decide (getPrevious s = s.current), s.current.start)) =
      some (true, true, some 2)) := by
  refine ⟨?_, rfl, rfl⟩
  intro fuel s s' h
  have ha := (nextToken_nextOK h).aliased
  exact ⟨ha, by unfold getPrevious; rw [ha]; rfl⟩

/-- Claim C7 witness: the aliasing fact applied after one concrete call. -/
theorem c7_previous_aliases_current_witness :
    ((nextToken 50 (initParser ['a'])).getD (initParser [])).aliased = true ∧
    getPrevious ((nextToken 50 (initParser ['a'])).getD (initParser [])) =
      ((nextToken 50 (initParser ['a'])).getD (initParser [])).current :=
  c7_previous_aliases_current.1 50 (initParser ['a']) _ rfl

/-- Claim C8: a zero-length `ERROR` token is indeed produced for an
unrecognized byte and scanning continues, but the message part of the claim
fails on the code: the printability test `c >= 32 && c <= 126` compares a
one-character *string* with a number, so JavaScript coerces the string with
`ToNumber`, yielding `NaN` for every character that reaches this branch; the
comparison is therefore always false and the printable `'@'` (byte 64)
reports `Invalid byte`, not `Invalid character`. -/
theorem c8_invalid_byte_message :
    (iterTok 100 1 (initParser ['@'])).map
      (fun s => (s.current.type, s.current.length, s.errors)) =
      some (some TokType.ERROR, 0, [((0 : Int), ErrKind.invalidByte (some '@'))]) ∧
    (32 ≤ '@'.toNat ∧ '@'.toNat ≤ 126) ∧
    jsPrintable (some '@') = false ∧
    (iterTok 100 2 (initParser ("@ x".toList))).map
      (fun s => s.tokens.map (fun pt => pt.type)) = some [TokType.NAME] :=
  ⟨rfl, by decide, rfl, rfl⟩

/-- Claim C9: the shebang tolerance fails on the code: the check requires
`currentLine == 1`, but `currentLine` is initialized to `0`, so `#!` at the
very start of the input is *not* treated as a comment — it produces
invalid-byte errors and `ERROR` tokens — while `#!` at the start of the
*second* line (where `currentLine` is 1) is skipped as a comment instead. -/
theorem c9_shebang_line_one_broken :
    (iterTok 100 1 (initParser ("#!x".toList))).map
      (fun s => (s.current.type, s.errors)) =
      some (some TokType.ERROR, [((0 : Int), ErrKind.invalidByte (some '#'))]) ∧
    (iterTok 100 2 (initParser ("\n#!x\ny".toList))).map
      (fun s => (s.current.type, s.spans)) =
      some (some TokType.LINE,
        [⟨0, 1, SpanKind.tok⟩, ⟨1, 4, SpanKind.skip⟩, ⟨4, 5, SpanKind.tok⟩]) :=
  ⟨rfl, rfl⟩

/-- Claim C10: the `Parser` constructor calls `nextToken` exactly 85 times
(by definition of `mkParser`), so whenever construction completes, at most 85
records are in the `tokens` array, whatever the source buffer: token streams
longer than 85 tokens are silently truncated at construction time. -/
theorem c10_constructor_token_bound (src : List Char) (fuel : Nat) (p : Parser)
    (h : mkParser fuel src = some p) :
    p.tokens.length ≤ 85 ∧ mkParser fuel src = iterTok fuel 85 (initParser src) := by
  refine ⟨?_, rfl⟩
  have := iterTok_tokens_le 85 fuel (initParser src) p h
  simpa using this

/-- Claim C10 witness: the bound evaluated on the empty buffer (the
construction completes, as the `isSome` side condition checks by
evaluation). -/
theorem c10_constructor_token_bound_witness :
    ((mkParser 100 []).get (by rfl)).tokens.length ≤ 85 :=
  (c10_constructor_token_bound [] 100 ((mkParser 100 []).get (by rfl))
    (Option.some_get (by rfl)).symm).1

end WrenTok
